import Mathlib

set_option maxRecDepth 4000

/-! Shallow embedding of the Bitbucket repository adapter
(the BitbucketService class) of this repository, together with the
JavaScript value model its methods operate on.  Network effects are
modelled by passing the outcome of the single fetch call performed by
each operation as an explicit argument; every operation is a total
function of the adapter state and that outcome, which is exactly the
try/catch discipline of the source (no exception escapes a public
method). -/

/-- JavaScript runtime values as seen by the adapter: JSON values plus
the distinguished undefined value produced by missing-property access.
Numbers are modelled as integers (no operation of the adapter computes
with them). -/
inductive Json where
  | undefined
  | null
  | bool (b : Bool)
  | num (n : Int)
  | str (s : String)
  | arr (elems : List Json)
  | obj (fields : List (String × Json))

/-- First matching field of a JS object literal, undefined when absent. -/
def Json.lookupField : List (String × Json) → String → Json
  | [], _ => .undefined
  | (k, v) :: rest, key => if k = key then v else Json.lookupField rest key

/-- JS property access o.k: throws a TypeError on null and undefined,
looks the field up on objects, and yields undefined on every other
value (built-in properties of primitives and arrays are not modelled,
which only matters for bodies of shapes no endpoint ever returns). -/
def jsGet : Json → String → Except Unit Json
  | .undefined, _ => .error ()
  | .null, _ => .error ()
  | .obj fs, k => .ok (Json.lookupField fs k)
  | _, _ => .ok .undefined

/-- JS truthiness of a value (NaN is not modelled). -/
def Json.truthy : Json → Bool
  | .undefined => false
  | .null => false
  | .bool b => b
  | .num n => n != 0
  | .str s => s != ""
  | .arr _ => true
  | .obj _ => true

/-- The JS logical-or operator on values. -/
def jsOrJson (a b : Json) : Json := if a.truthy then a else b

/-- JS strict equality between an arbitrary value and a string. -/
def jsStrictEqStr (v : Json) (t : String) : Bool :=
  match v with
  | .str u => u == t
  | _ => false

/-- UTF-8 bytes of one character. -/
def utf8Encode (c : Char) : List Nat :=
  let n := c.toNat
  if n < 128 then [n]
  else if n < 2048 then [192 + n / 64, 128 + n % 64]
  else if n < 65536 then [224 + n / 4096, 128 + n / 64 % 64, 128 + n % 64]
  else [240 + n / 262144, 128 + n / 4096 % 64, 128 + n / 64 % 64, 128 + n % 64]

/-- Decode a UTF-8 byte list back to characters.  Malformed sequences
are tolerated loosely; the adapter only ever decodes well-formed data. -/
def utf8Decode : List Nat → List Char
  | [] => []
  | b :: rest =>
    if b < 128 then Char.ofNat b :: utf8Decode rest
    else if b < 224 then
      match rest with
      | [] => [Char.ofNat (b % 32)]
      | b2 :: rest2 => Char.ofNat ((b % 32) * 64 + b2 % 64) :: utf8Decode rest2
    else if b < 240 then
      match rest with
      | b2 :: b3 :: rest3 =>
          Char.ofNat ((b % 16) * 4096 + b2 % 64 * 64 + b3 % 64) :: utf8Decode rest3
      | _ => [Char.ofNat 65533]
    else
      match rest with
      | b2 :: b3 :: b4 :: rest4 =>
          Char.ofNat ((b % 8) * 262144 + b2 % 64 * 4096 + b3 % 64 * 64 + b4 % 64) ::
            utf8Decode rest4
      | _ => [Char.ofNat 65533]

/-- Character of a 6-bit group in the standard base64 alphabet. -/
def b64CharOf (n : Nat) : Char :=
  if n < 26 then Char.ofNat (65 + n)
  else if n < 52 then Char.ofNat (97 + (n - 26))
  else if n < 62 then Char.ofNat (48 + (n - 52))
  else if n = 62 then '+'
  else '/'

/-- Standard base64 of a byte list, with padding. -/
def b64EncodeBytes : List Nat → List Char
  | b1 :: b2 :: b3 :: rest =>
    b64CharOf (b1 / 4) :: b64CharOf (b1 % 4 * 16 + b2 / 16) ::
      b64CharOf (b2 % 16 * 4 + b3 / 64) :: b64CharOf (b3 % 64) :: b64EncodeBytes rest
  | [b1, b2] =>
    [b64CharOf (b1 / 4), b64CharOf (b1 % 4 * 16 + b2 / 16), b64CharOf (b2 % 16 * 4), '=']
  | [b1] => [b64CharOf (b1 / 4), b64CharOf (b1 % 4 * 16), '=', '=']
  | [] => []

/-- 6-bit value of a base64 alphabet character. -/
def b64ValOf (c : Char) : Nat :=
  let n := c.toNat
  if 65 ≤ n && n ≤ 90 then n - 65
  else if 97 ≤ n && n ≤ 122 then n - 71
  else if 48 ≤ n && n ≤ 57 then n + 4
  else if c = '+' then 62
  else if c = '/' then 63
  else 0

/-- Bytes of a list of 6-bit groups (padding already removed). -/
def b64DecodeVals : List Nat → List Nat
  | v1 :: v2 :: v3 :: v4 :: rest =>
    (v1 * 4 + v2 / 16) :: (v2 % 16 * 16 + v3 / 4) :: (v3 % 4 * 64 + v4) :: b64DecodeVals rest
  | [v1, v2, v3] => [v1 * 4 + v2 / 16, v2 % 16 * 16 + v3 / 4]
  | [v1, v2] => [v1 * 4 + v2 / 16]
  | [_] => []
  | [] => []

namespace Base64

/-- The js-base64 encoder: UTF-8 bytes, then base64. -/
def encode (s : String) : String :=
  String.mk (b64EncodeBytes (List.flatten (s.toList.map utf8Encode)))

/-- The js-base64 decoder: strip padding, base64 to bytes, UTF-8 decode. -/
def decode (s : String) : String :=
  String.mk (utf8Decode (b64DecodeVals ((s.toList.filter (fun c => c != '=')).map b64ValOf)))

end Base64

/-- Secret kinds relevant to the adapter.  The switch in getAuthProvider
distinguishes only BASIC_AUTH from everything else, so every other
(or absent) secret kind of the imported SecretType enumeration is
collapsed into OTHER. -/
inductive SecretType where
  | BASIC_AUTH
  | OTHER
deriving DecidableEq

/-- Basic-auth credential fields, stored base64-encoded. -/
structure SecretContent where
  username : String
  password : String

/-- The source descriptor handed to the adapter constructor. -/
structure GitSource where
  url : String
  ref : Option String
  contextDir : Option String
  devfilePath : Option String
  dockerfilePath : Option String
  secretType : SecretType
  secretContent : SecretContent

/-- Repository metadata derived once at construction. -/
structure RepoMetadata where
  repoName : String
  owner : String
  host : String
  defaultBranch : String
  contextDir : String
  devfilePath : Option String
  dockerfilePath : Option String

/-- Result shape of the URL parse. -/
structure ParsedUrl where
  name : String
  owner : String
  host : String

/-- Split a character list on a separator character. -/
def splitOnChar (sep : Char) : List Char → List (List Char)
  | [] => [[]]
  | c :: rest =>
    if c == sep then [] :: splitOnChar sep rest
    else
      match splitOnChar sep rest with
      | [] => [[c]]
      | h :: t => (c :: h) :: t

/-- Whether one character list begins with another. -/
def charsStartWith : List Char → List Char → Bool
  | _, [] => true
  | [], _ :: _ => false
  | c :: cs, p :: ps => c == p && charsStartWith cs ps

/-- Modelled from the spec: the parse-bitbucket-url dependency is not
part of this repository.  The spec says the constructor parses the URL
into owner, repo and host, so the scheme is stripped and the first
three path segments are taken as host, owner and name. -/
def parseBitbucketUrl (url : String) : ParsedUrl :=
  let chars := url.data
  let rest :=
    if charsStartWith chars ("https://").data then chars.drop 8
    else if charsStartWith chars ("http://").data then chars.drop 7
    else chars
  match (splitOnChar '/' rest).map String.mk with
  | host :: owner :: name :: _ => ⟨name, owner, host⟩
  | [host, owner] => ⟨"", owner, host⟩
  | [host] => ⟨"", "", host⟩
  | [] => ⟨"", "", ""⟩

/-- The JS logical-or of an optional string with a default: undefined
and the empty string are falsy. -/
def jsOrStr (s : Option String) (dflt : String) : String :=
  match s with
  | none => dflt
  | some v => if v = "" then dflt else v

/-- The regex replace of a single trailing slash. -/
def stripTrailingSlash (s : String) : String :=
  if s.data.getLast? = some '/' then String.mk s.data.dropLast else s

/-- The regex replace of a single leading slash. -/
def stripLeadingSlash (p : String) : String :=
  match p.data with
  | '/' :: rest => String.mk rest
  | _ => p

/-- getRepoMetadata of the adapter. -/
def getRepoMetadata (gs : GitSource) : RepoMetadata :=
  { repoName := (parseBitbucketUrl gs.url).name
    owner := (parseBitbucketUrl gs.url).owner
    host := (parseBitbucketUrl gs.url).host
    defaultBranch := jsOrStr gs.ref ("HEAD")
    contextDir := jsOrStr (gs.contextDir.map stripTrailingSlash) ("")
    devfilePath := gs.devfilePath
    dockerfilePath := gs.dockerfilePath }

/-- The adapter state.  All four fields are written exactly once, by
the constructor, and are never mutated afterwards: the embedding is an
immutable structure, mirroring that the source assigns baseURL and
isServer only inside the constructor. -/
structure BitbucketService where
  gitsource : GitSource
  metadata : RepoMetadata
  baseURL : String
  isServer : Bool

/-- The BitbucketService constructor: metadata is derived from the
source descriptor, and when the parsed host differs from bitbucket.org
the adapter switches to the self-hosted base path once and for all. -/
def construct (gs : GitSource) : BitbucketService :=
  if (getRepoMetadata gs).host ≠ "bitbucket.org" then
    { gitsource := gs
      metadata := getRepoMetadata gs
      baseURL := "https://" ++ (getRepoMetadata gs).host ++ "/rest/api/1.0"
      isServer := true }
  else
    { gitsource := gs
      metadata := getRepoMetadata gs
      baseURL := "https://api.bitbucket.org/2.0"
      isServer := false }

/-- getAuthProvider: the derived auth header object, or null. -/
def getAuthProvider (gs : GitSource) : Option (List (String × String)) :=
  match gs.secretType with
  | .BASIC_AUTH =>
    let encodedAuth :=
      Base64.encode
        (Base64.decode gs.secretContent.username ++ ":" ++
          Base64.decode gs.secretContent.password)
    some [("Authorization", "Basic " ++ encodedAuth)]
  | .OTHER => none

/-- An HTTP response as the adapter observes it: status code, the
Content-Type header (none when absent), the body text, and the result
of parsing the body as JSON (error when the body is not valid JSON). -/
structure HttpResponse where
  status : Nat
  contentType : Option String
  bodyText : String
  bodyJson : Except Unit Json

/-- response.ok of the fetch API: status in the 2xx range. -/
def HttpResponse.ok (r : HttpResponse) : Bool := 200 ≤ r.status && r.status < 300

/-- Outcome of one fetch call: transport failure or a response. -/
inductive FetchOutcome where
  | netError
  | response (r : HttpResponse)

/-- What a fetchJson call can throw: the raw response object (non-2xx
status) or some other exception object without a status field
(transport error or JSON parse error). -/
inductive JsThrown where
  | resp (r : HttpResponse)
  | exn

/-- What a fetchJson call can resolve to: raw body text (text/plain) or
the parsed JSON body. -/
inductive FetchBody where
  | text (s : String)
  | json (j : Json)

/-- The request fetchJson issues. -/
structure HttpRequest where
  method : String
  url : String
  headers : List (String × String)

/-- The header object passed to fetch: the JSON Accept header spread
together with the derived auth headers (null spreads to nothing). -/
def fetchHeaders (gs : GitSource) : List (String × String) :=
  match getAuthProvider gs with
  | some auth => ("Accept", "application/json") :: auth
  | none => [("Accept", "application/json")]

/-- The request side of fetchJson: a GET with the derived headers. -/
def fetchRequest (gs : GitSource) (url : String) : HttpRequest :=
  { method := "GET", url := url, headers := fetchHeaders gs }

/-- The response side of fetchJson: throw the raw response when the
status is not ok, return the body text when the declared content type
is text/plain, otherwise the parsed JSON body (a parse failure
propagates as a non-response exception). -/
def fetchJsonResult (outcome : FetchOutcome) : Except JsThrown FetchBody :=
  match outcome with
  | .netError => .error .exn
  | .response r =>
    if !r.ok then .error (.resp r)
    else if r.contentType = some ("text/plain") then .ok (.text r.bodyText)
    else
      match r.bodyJson with
      | .ok j => .ok (.json j)
      | .error _ => .error .exn

/-- True exactly when fetchJson throws for the given outcome. -/
def fetchFails (outcome : FetchOutcome) : Bool :=
  match fetchJsonResult outcome with
  | .error _ => true
  | .ok _ => false

/-- The awaited fetchJson value as a JS value. -/
def resultToJson : FetchBody → Json
  | .text t => .str t
  | .json j => j

/-- The reachability enumeration (RepoStatus of the imported types;
the spec calls the last member InvalidSelection). -/
inductive RepoStatus where
  | Reachable
  | Unreachable
  | RateLimitExceeded
  | PrivateRepo
  | ResourceNotFound
  | InvalidGitTypeSelected
deriving DecidableEq

/-- The URL isRepoReachable requests. -/
def isRepoReachableUrl (s : BitbucketService) : String :=
  if s.isServer then
    s.baseURL ++ "/projects/" ++ s.metadata.owner ++ "/repos/" ++ s.metadata.repoName
  else
    s.baseURL ++ "/repositories/" ++ s.metadata.owner ++ "/" ++ s.metadata.repoName

/-- isRepoReachable for a given fetch outcome: on a resolved body read
its slug property (a TypeError on null or undefined is caught like any
other exception and, carrying no status, falls to the default branch);
on a thrown value switch on its status field. -/
def isRepoReachableResult (s : BitbucketService) (outcome : FetchOutcome) : RepoStatus :=
  match fetchJsonResult outcome with
  | .error e =>
    match e with
    | .resp r =>
      if r.status = 429 then .RateLimitExceeded
      else if r.status = 403 then .PrivateRepo
      else if r.status = 404 then .ResourceNotFound
      else .InvalidGitTypeSelected
    | .exn => .InvalidGitTypeSelected
  | .ok res =>
    match jsGet (resultToJson res) ("slug") with
    | .error _ => .InvalidGitTypeSelected
    | .ok v => if jsStrictEqStr v s.metadata.repoName then .Reachable else .Unreachable

/-- Branch query result (runtime values kept as JS values). -/
structure BranchList where
  branches : List Json

/-- data.values.map of a field accessor, with JS exception behaviour:
throws when reading values throws, when values is not an array, or
when an element does not support property access. -/
def jsMapField (data : Json) (field : String) : Except Unit (List Json) :=
  match jsGet data ("values") with
  | .error e => .error e
  | .ok vs =>
    match vs with
    | .arr items => items.mapM (fun b => jsGet b field)
    | _ => .error ()

/-- The URL getRepoBranchList requests. -/
def getRepoBranchListUrl (s : BitbucketService) : String :=
  if s.isServer then
    s.baseURL ++ "/projects/" ++ s.metadata.owner ++ "/repos/" ++ s.metadata.repoName ++
      "/branches"
  else
    s.baseURL ++ "/repositories/" ++ s.metadata.owner ++ "/" ++ s.metadata.repoName ++
      "/refs/branches"

/-- getRepoBranchList for a given fetch outcome. -/
def getRepoBranchListResult (s : BitbucketService) (outcome : FetchOutcome) : BranchList :=
  match fetchJsonResult outcome with
  | .error _ => ⟨[]⟩
  | .ok res =>
    match jsMapField (resultToJson res) ("name") with
    | .ok names => ⟨names⟩
    | .error _ => ⟨[]⟩

/-- JS truthiness of the optional specificPath argument. -/
def optStrTruthy : Option String → Bool
  | some p => p != ""
  | none => false

/-- isServerURL: the directory-listing URL builder of the adapter. -/
def isServerURL (s : BitbucketService) (isServer : Bool) (specificPath : Option String) :
    String :=
  if optStrTruthy specificPath then
    let sp := specificPath.getD ""
    if isServer then
      s.baseURL ++ "/projects/" ++ s.metadata.owner ++ "/repos/" ++ s.metadata.repoName ++
        "/files/" ++ s.metadata.contextDir ++ "/" ++ sp ++ "?limit=50&at=" ++
        s.metadata.defaultBranch
    else
      s.baseURL ++ "/repositories/" ++ s.metadata.owner ++ "/" ++ s.metadata.repoName ++
        "/src/" ++ s.metadata.defaultBranch ++ "/" ++ s.metadata.contextDir ++ "/" ++ sp ++
        "?pagelen=50"
  else
    if isServer then
      s.baseURL ++ "/projects/" ++ s.metadata.owner ++ "/repos/" ++ s.metadata.repoName ++
        "/files/" ++ s.metadata.contextDir ++ "?limit=50&at=" ++ s.metadata.defaultBranch
    else
      s.baseURL ++ "/repositories/" ++ s.metadata.owner ++ "/" ++ s.metadata.repoName ++
        "/src/" ++ s.metadata.defaultBranch ++ "/" ++ s.metadata.contextDir ++ "?pagelen=50"

/-- The URL getRepoFileList requests (the truthiness test on the
optional params.specificPath included). -/
def getRepoFileListUrl (s : BitbucketService) (specificPath : Option String) : String :=
  if optStrTruthy specificPath then isServerURL s s.isServer specificPath
  else isServerURL s s.isServer none

/-- File query result: kept as a raw JS value because the self-hosted
branch of the source passes data.values through unchanged, whatever
its runtime shape. -/
structure RepoFileList where
  files : Json

/-- The SaaS normalization: data.values optionally chained into a map
over the path field, with the logical-or fallback to an empty array. -/
def saasFiles (data : Json) : Except Unit Json :=
  match jsGet data ("values") with
  | .error e => .error e
  | .ok vs =>
    match vs with
    | .undefined => .ok (jsOrJson .undefined (.arr []))
    | .null => .ok (jsOrJson .undefined (.arr []))
    | .arr items =>
      match items.mapM (fun f => jsGet f ("path")) with
      | .ok paths => .ok (jsOrJson (.arr paths) (.arr []))
      | .error e => .error e
    | _ => .error ()

/-- getRepoFileList for a given fetch outcome. -/
def getRepoFileListResult (s : BitbucketService) (outcome : FetchOutcome) : RepoFileList :=
  match fetchJsonResult outcome with
  | .error _ => ⟨.arr []⟩
  | .ok res =>
    if s.isServer then
      match jsGet (resultToJson res) ("values") with
      | .ok v => ⟨v⟩
      | .error _ => ⟨.arr []⟩
    else
      match saasFiles (resultToJson res) with
      | .ok v => ⟨v⟩
      | .error _ => ⟨.arr []⟩

/-- Language query result. -/
structure RepoLanguageList where
  languages : List Json

/-- The URL getRepoLanguageList requests. -/
def getRepoLanguageListUrl (s : BitbucketService) : String :=
  if s.isServer then
    s.baseURL ++ "/projects/" ++ s.metadata.owner ++ "/repos/" ++ s.metadata.repoName
  else
    s.baseURL ++ "/repositories/" ++ s.metadata.owner ++ "/" ++ s.metadata.repoName

/-- getRepoLanguageList for a given fetch outcome: the language field
of the resolved body wrapped in a singleton list. -/
def getRepoLanguageListResult (s : BitbucketService) (outcome : FetchOutcome) :
    RepoLanguageList :=
  match fetchJsonResult outcome with
  | .error _ => ⟨[]⟩
  | .ok res =>
    match jsGet (resultToJson res) ("language") with
    | .ok v => ⟨[v]⟩
    | .error _ => ⟨[]⟩

/-- The URL isFilePresent requests: raw file content at the path with
one leading slash stripped. -/
def isFilePresentUrl (s : BitbucketService) (path : String) : String :=
  if s.isServer then
    s.baseURL ++ "/projects/" ++ s.metadata.owner ++ "/repos/" ++ s.metadata.repoName ++
      "/raw/" ++ stripLeadingSlash path ++ "?at=" ++ s.metadata.defaultBranch
  else
    s.baseURL ++ "/repositories/" ++ s.metadata.owner ++ "/" ++ s.metadata.repoName ++
      "/src/" ++ s.metadata.defaultBranch ++ "/" ++ stripLeadingSlash path

/-- isFilePresent for a given fetch outcome. -/
def isFilePresentResult (s : BitbucketService) (outcome : FetchOutcome) : Bool :=
  match fetchJsonResult outcome with
  | .ok _ => true
  | .error _ => false

/-- The URL getFileContent requests (same template as isFilePresent). -/
def getFileContentUrl (s : BitbucketService) (path : String) : String :=
  if s.isServer then
    s.baseURL ++ "/projects/" ++ s.metadata.owner ++ "/repos/" ++ s.metadata.repoName ++
      "/raw/" ++ stripLeadingSlash path ++ "?at=" ++ s.metadata.defaultBranch
  else
    s.baseURL ++ "/repositories/" ++ s.metadata.owner ++ "/" ++ s.metadata.repoName ++
      "/src/" ++ s.metadata.defaultBranch ++ "/" ++ stripLeadingSlash path

/-- getFileContent for a given fetch outcome: the resolved value, or
null on any failure. -/
def getFileContentResult (s : BitbucketService) (outcome : FetchOutcome) : Option Json :=
  match fetchJsonResult outcome with
  | .ok res => some (resultToJson res)
  | .error _ => none

/-- A SaaS-hosted source descriptor: host bitbucket.org, ref main. -/
def gsSaaS : GitSource :=
  { url := "https://bitbucket.org/org/repo"
    ref := some ("main")
    contextDir := none
    devfilePath := none
    dockerfilePath := none
    secretType := .OTHER
    secretContent := ⟨"", ""⟩ }

/-- A SaaS-hosted source descriptor without a ref. -/
def gsSaaSNoRef : GitSource :=
  { url := "https://bitbucket.org/org/repo"
    ref := none
    contextDir := none
    devfilePath := none
    dockerfilePath := none
    secretType := .OTHER
    secretContent := ⟨"", ""⟩ }

/-- A self-hosted source descriptor: host git.example.com, no ref. -/
def gsServer : GitSource :=
  { url := "https://git.example.com/org/repo"
    ref := none
    contextDir := none
    devfilePath := none
    dockerfilePath := none
    secretType := .OTHER
    secretContent := ⟨"", ""⟩ }

/-- A basic-auth source descriptor with the encoded user/pass pair of
the spec example. -/
def gsBasic : GitSource :=
  { url := "https://bitbucket.org/org/repo"
    ref := none
    contextDir := none
    devfilePath := none
    dockerfilePath := none
    secretType := .BASIC_AUTH
    secretContent := ⟨"dXNlcg==", "cGFzcw=="⟩ }

/-- The SaaS adapter instance used in concrete scenarios. -/
def svcSaaS : BitbucketService := construct gsSaaS

/-- The self-hosted adapter instance used in concrete scenarios. -/
def svcServer : BitbucketService := construct gsServer

/-- A 2xx response whose JSON body is the empty object. -/
def respOkEmptyObj : HttpResponse :=
  { status := 200, contentType := none, bodyText := "", bodyJson := .ok (.obj []) }

/-- A 2xx response whose JSON body is null. -/
def respOkNullBody : HttpResponse :=
  { status := 200, contentType := none, bodyText := "null", bodyJson := .ok .null }

/-- A 2xx response whose body is not valid JSON. -/
def respBadJson : HttpResponse :=
  { status := 200, contentType := none, bodyText := "oops", bodyJson := .error () }

/-- A 2xx text/plain response. -/
def respTextPlain : HttpResponse :=
  { status := 200, contentType := some ("text/plain"), bodyText := "hello"
    bodyJson := .error () }

/-- A 500 response. -/
def resp500 : HttpResponse :=
  { status := 500, contentType := none, bodyText := "", bodyJson := .ok (.obj []) }

/-- A 429 response. -/
def resp429 : HttpResponse :=
  { status := 429, contentType := none, bodyText := "", bodyJson := .error () }

/-- A 2xx response carrying the two-branch values list of the spec
scenario. -/
def respBranches : HttpResponse :=
  { status := 200, contentType := none, bodyText := ""
    bodyJson := .ok (.obj [("values",
      .arr [.obj [("name", .str ("main"))], .obj [("name", .str ("dev"))]])]) }

/-- A 2xx response whose body carries a slug field equal to repo. -/
def respSlugRepo : HttpResponse :=
  { status := 200, contentType := none, bodyText := ""
    bodyJson := .ok (.obj [("slug", .str ("repo"))]) }

/-- The metadata stored by the constructor is getRepoMetadata. -/
theorem construct_metadata (gs : GitSource) :
    (construct gs).metadata = getRepoMetadata gs := by
  unfold construct
  split <;> rfl

/-- The constructor in the self-hosted case. -/
theorem construct_of_host_ne (gs : GitSource)
    (h : (parseBitbucketUrl gs.url).host ≠ "bitbucket.org") :
    (construct gs).isServer = true ∧
      (construct gs).baseURL =
        "https://" ++ (parseBitbucketUrl gs.url).host ++ "/rest/api/1.0" := by
  unfold construct
  rw [if_pos]
  · exact ⟨rfl, rfl⟩
  · exact h

/-- The constructor in the SaaS case. -/
theorem construct_of_host_eq (gs : GitSource)
    (h : (parseBitbucketUrl gs.url).host = "bitbucket.org") :
    (construct gs).isServer = false ∧
      (construct gs).baseURL = "https://api.bitbucket.org/2.0" := by
  unfold construct
  rw [if_neg]
  · exact ⟨rfl, rfl⟩
  · simpa using h

/-- C1: the topology decision is a function of the parsed host alone,
made once by the constructor: for any source descriptor whose parsed
host is not bitbucket.org the (immutable) adapter is in self-hosted
mode, its base path is the self-hosted one, and every URL any public
operation generates has the self-hosted endpoint shape over that base;
for host bitbucket.org every generated URL uses the SaaS base path and
shape. -/
theorem c1_topology_fixed_by_host (gs : GitSource) :
    ((construct gs).isServer = decide ((parseBitbucketUrl gs.url).host ≠ "bitbucket.org")) ∧
    (∀ gs2 : GitSource,
      (parseBitbucketUrl gs2.url).host = (parseBitbucketUrl gs.url).host →
      (construct gs2).isServer = (construct gs).isServer) ∧
    ((parseBitbucketUrl gs.url).host ≠ "bitbucket.org" →
      (construct gs).isServer = true ∧
      (construct gs).baseURL =
        "https://" ++ (parseBitbucketUrl gs.url).host ++ "/rest/api/1.0" ∧
      isRepoReachableUrl (construct gs) =
        (construct gs).baseURL ++ "/projects/" ++ (construct gs).metadata.owner ++
          "/repos/" ++ (construct gs).metadata.repoName ∧
      getRepoBranchListUrl (construct gs) =
        (construct gs).baseURL ++ "/projects/" ++ (construct gs).metadata.owner ++
          "/repos/" ++ (construct gs).metadata.repoName ++ "/branches" ∧
      getRepoLanguageListUrl (construct gs) =
        (construct gs).baseURL ++ "/projects/" ++ (construct gs).metadata.owner ++
          "/repos/" ++ (construct gs).metadata.repoName ∧
      getRepoFileListUrl (construct gs) none =
        (construct gs).baseURL ++ "/projects/" ++ (construct gs).metadata.owner ++
          "/repos/" ++ (construct gs).metadata.repoName ++ "/files/" ++
          (construct gs).metadata.contextDir ++ "?limit=50&at=" ++
          (construct gs).metadata.defaultBranch ∧
      (∀ sp : String, sp ≠ "" →
        getRepoFileListUrl (construct gs) (some sp) =
          (construct gs).baseURL ++ "/projects/" ++ (construct gs).metadata.owner ++
            "/repos/" ++ (construct gs).metadata.repoName ++ "/files/" ++
            (construct gs).metadata.contextDir ++ "/" ++ sp ++ "?limit=50&at=" ++
            (construct gs).metadata.defaultBranch) ∧
      (∀ p : String,
        isFilePresentUrl (construct gs) p =
          (construct gs).baseURL ++ "/projects/" ++ (construct gs).metadata.owner ++
            "/repos/" ++ (construct gs).metadata.repoName ++ "/raw/" ++
            stripLeadingSlash p ++ "?at=" ++ (construct gs).metadata.defaultBranch) ∧
      (∀ p : String,
        getFileContentUrl (construct gs) p =
          (construct gs).baseURL ++ "/projects/" ++ (construct gs).metadata.owner ++
            "/repos/" ++ (construct gs).metadata.repoName ++ "/raw/" ++
            stripLeadingSlash p ++ "?at=" ++ (construct gs).metadata.defaultBranch)) ∧
    ((parseBitbucketUrl gs.url).host = "bitbucket.org" →
      (construct gs).isServer = false ∧
      (construct gs).baseURL = "https://api.bitbucket.org/2.0" ∧
      isRepoReachableUrl (construct gs) =
        (construct gs).baseURL ++ "/repositories/" ++ (construct gs).metadata.owner ++
          "/" ++ (construct gs).metadata.repoName ∧
      getRepoBranchListUrl (construct gs) =
        (construct gs).baseURL ++ "/repositories/" ++ (construct gs).metadata.owner ++
          "/" ++ (construct gs).metadata.repoName ++ "/refs/branches" ∧
      getRepoLanguageListUrl (construct gs) =
        (construct gs).baseURL ++ "/repositories/" ++ (construct gs).metadata.owner ++
          "/" ++ (construct gs).metadata.repoName ∧
      getRepoFileListUrl (construct gs) none =
        (construct gs).baseURL ++ "/repositories/" ++ (construct gs).metadata.owner ++
          "/" ++ (construct gs).metadata.repoName ++ "/src/" ++
          (construct gs).metadata.defaultBranch ++ "/" ++
          (construct gs).metadata.contextDir ++ "?pagelen=50" ∧
      (∀ sp : String, sp ≠ "" →
        getRepoFileListUrl (construct gs) (some sp) =
          (construct gs).baseURL ++ "/repositories/" ++ (construct gs).metadata.owner ++
            "/" ++ (construct gs).metadata.repoName ++ "/src/" ++
            (construct gs).metadata.defaultBranch ++ "/" ++
            (construct gs).metadata.contextDir ++ "/" ++ sp ++ "?pagelen=50") ∧
      (∀ p : String,
        isFilePresentUrl (construct gs) p =
          (construct gs).baseURL ++ "/repositories/" ++ (construct gs).metadata.owner ++
            "/" ++ (construct gs).metadata.repoName ++ "/src/" ++
            (construct gs).metadata.defaultBranch ++ "/" ++ stripLeadingSlash p) ∧
      (∀ p : String,
        getFileContentUrl (construct gs) p =
          (construct gs).baseURL ++ "/repositories/" ++ (construct gs).metadata.owner ++
            "/" ++ (construct gs).metadata.repoName ++ "/src/" ++
            (construct gs).metadata.defaultBranch ++ "/" ++ stripLeadingSlash p)) := by
  refine ⟨?_, ?_, ?_, ?_⟩
  · by_cases h : (parseBitbucketUrl gs.url).host = "bitbucket.org"
    · rw [(construct_of_host_eq gs h).1]; simp [h]
    · rw [(construct_of_host_ne gs h).1]; simp [h]
  · intro gs2 hh
    by_cases h : (parseBitbucketUrl gs.url).host = "bitbucket.org"
    · rw [(construct_of_host_eq gs h).1, (construct_of_host_eq gs2 (hh.trans h)).1]
    · rw [(construct_of_host_ne gs h).1, (construct_of_host_ne gs2 (by rw [hh]; exact h)).1]
  · intro h
    obtain ⟨hs, hb⟩ := construct_of_host_ne gs h
    refine ⟨hs, hb, ?_, ?_, ?_, ?_, ?_, ?_, ?_⟩
    · simp [isRepoReachableUrl, hs]
    · simp [getRepoBranchListUrl, hs]
    · simp [getRepoLanguageListUrl, hs]
    · simp [getRepoFileListUrl, isServerURL, optStrTruthy, hs]
    · intro sp hsp
      simp [getRepoFileListUrl, isServerURL, optStrTruthy, hs, hsp]
    · intro p
      simp [isFilePresentUrl, hs]
    · intro p
      simp [getFileContentUrl, hs]
  · intro h
    obtain ⟨hs, hb⟩ := construct_of_host_eq gs h
    refine ⟨hs, hb, ?_, ?_, ?_, ?_, ?_, ?_, ?_⟩
    · simp [isRepoReachableUrl, hs]
    · simp [getRepoBranchListUrl, hs]
    · simp [getRepoLanguageListUrl, hs]
    · simp [getRepoFileListUrl, isServerURL, optStrTruthy, hs]
    · intro sp hsp
      simp [getRepoFileListUrl, isServerURL, optStrTruthy, hs, hsp]
    · intro p
      simp [isFilePresentUrl, hs]
    · intro p
      simp [getFileContentUrl, hs]

/-- Witness for C1: a concrete self-hosted adapter and a concrete SaaS
adapter, with the base paths the theorem assigns them. -/
theorem c1_topology_fixed_by_host_witness :
    (construct gsServer).isServer = true ∧
      (construct gsServer).baseURL = "https://git.example.com/rest/api/1.0" ∧
      (construct gsSaaS).isServer = false ∧
      (construct gsSaaS).baseURL = "https://api.bitbucket.org/2.0" := by
  have h1 := (c1_topology_fixed_by_host gsServer).2.2.1 (by decide)
  have h2 := (c1_topology_fixed_by_host gsSaaS).2.2.2 (by decide)
  exact ⟨h1.1, by rw [h1.2.1]; rfl, h2.1, h2.2.1⟩

/-- C2 counterexample: a 2xx response whose JSON body is null is a
successful request without a matching repo-name, yet the result is
InvalidGitTypeSelected (the InvalidSelection of the spec), not the
Unreachable the claim requires: reading slug off the null body throws,
and the caught TypeError has no status field. -/
theorem c2_counterexample_null_body :
    HttpResponse.ok respOkNullBody = true ∧
    fetchJsonResult (.response respOkNullBody) = .ok (.json .null) ∧
    isRepoReachableResult svcSaaS (.response respOkNullBody) =
      RepoStatus.InvalidGitTypeSelected ∧
    RepoStatus.InvalidGitTypeSelected ≠ RepoStatus.Unreachable :=
  ⟨rfl, rfl, rfl, by decide⟩

/-- C2 (amended): when fetchJson throws a response, the status maps
429, 403, 404 to RateLimitExceeded, PrivateRepo, ResourceNotFound and
everything else to InvalidGitTypeSelected; a transport failure or an
unparseable 2xx body also yields InvalidGitTypeSelected; on a resolved
body whose slug property is readable the result is Reachable exactly
when slug strictly equals the repo name and Unreachable otherwise,
while a resolved null or undefined body (slug access throws) yields
InvalidGitTypeSelected rather than Unreachable. -/
theorem c2_reachability_status_map (s : BitbucketService) (o : FetchOutcome) :
    (∀ r : HttpResponse, o = .response r → r.ok = false →
      isRepoReachableResult s o =
        (if r.status = 429 then .RateLimitExceeded
         else if r.status = 403 then .PrivateRepo
         else if r.status = 404 then .ResourceNotFound
         else .InvalidGitTypeSelected)) ∧
    (o = .netError → isRepoReachableResult s o = .InvalidGitTypeSelected) ∧
    (∀ r : HttpResponse, o = .response r → r.ok = true →
      r.contentType ≠ some ("text/plain") → r.bodyJson = .error () →
      isRepoReachableResult s o = .InvalidGitTypeSelected) ∧
    (∀ res : FetchBody, fetchJsonResult o = .ok res →
      jsGet (resultToJson res) ("slug") = .error () →
      isRepoReachableResult s o = .InvalidGitTypeSelected) ∧
    (∀ res : FetchBody, ∀ v : Json, fetchJsonResult o = .ok res →
      jsGet (resultToJson res) ("slug") = .ok v →
      isRepoReachableResult s o =
        (if jsStrictEqStr v s.metadata.repoName then .Reachable else .Unreachable)) := by
  refine ⟨?_, ?_, ?_, ?_, ?_⟩
  · intro r ho hok
    subst ho
    simp [isRepoReachableResult, fetchJsonResult, hok]
  · intro ho
    subst ho
    simp [isRepoReachableResult, fetchJsonResult]
  · intro r ho hok hct hbj
    subst ho
    simp [isRepoReachableResult, fetchJsonResult, hok, hct, hbj]
  · intro res hres hslug
    simp [isRepoReachableResult, hres, hslug]
  · intro res v hres hslug
    simp [isRepoReachableResult, hres, hslug]

/-- Witness for C2: the 429 failure maps to RateLimitExceeded, a
transport failure to InvalidGitTypeSelected, and a matching slug to
Reachable, at concrete inputs. -/
theorem c2_reachability_status_map_witness :
    isRepoReachableResult svcSaaS (.response resp429) = .RateLimitExceeded ∧
    isRepoReachableResult svcSaaS .netError = .InvalidGitTypeSelected ∧
    isRepoReachableResult svcSaaS (.response respSlugRepo) = .Reachable := by
  have h1 := (c2_reachability_status_map svcSaaS (.response resp429)).1 resp429 rfl rfl
  have h2 := (c2_reachability_status_map svcSaaS .netError).2.1 rfl
  have h3 := (c2_reachability_status_map svcSaaS (.response respSlugRepo)).2.2.2.2
    (.json (.obj [("slug", .str ("repo"))])) (.str ("repo")) rfl rfl
  exact ⟨by rw [h1]; rfl, h2, by rw [h3]; rfl⟩

/-- C3 counterexample: a 2xx response whose body is an object without
a values field is a successful fetch with an unexpectedly shaped body,
yet the self-hosted file list operation returns the undefined value as
its files field, not an empty list: the self-hosted branch passes
data.values through unchanged. -/
theorem c3_counterexample_server_files :
    HttpResponse.ok respOkEmptyObj = true ∧
    (getRepoFileListResult svcServer (.response respOkEmptyObj)).files = .undefined ∧
    Json.undefined ≠ Json.arr [] :=
  ⟨rfl, rfl, fun h => Json.noConfusion h⟩

/-- C3 (amended): no exception ever escapes any of the three list
operations (each is a total function of the fetch outcome); whenever
the shared fetch primitive throws (transport failure, non-2xx status,
or a 2xx body that is not valid JSON) all three return an empty list;
the branch list moreover returns an empty list whenever the resolved
body is shaped so that the values/name mapping throws.  A resolved
body of unexpected shape can however make the language list return a
one-element list holding the undefined language field, and can make
the self-hosted file list pass the raw non-array values field through
instead of an empty list. -/
theorem c3_lists_empty_on_failure (s : BitbucketService) (o : FetchOutcome) :
    (fetchFails o = true →
      (getRepoBranchListResult s o).branches = [] ∧
      (getRepoLanguageListResult s o).languages = [] ∧
      (getRepoFileListResult s o).files = .arr []) ∧
    (∀ res : FetchBody, fetchJsonResult o = .ok res →
      jsMapField (resultToJson res) ("name") = .error () →
      (getRepoBranchListResult s o).branches = []) := by
  constructor
  · intro hf
    unfold fetchFails at hf
    cases hres : fetchJsonResult o with
    | ok res => rw [hres] at hf; exact absurd hf (by simp)
    | error e =>
      exact ⟨by simp [getRepoBranchListResult, hres],
        by simp [getRepoLanguageListResult, hres],
        by simp [getRepoFileListResult, hres]⟩
  · intro res hres hmap
    simp [getRepoBranchListResult, hres, hmap]

/-- Witness for C3: at a concrete 500 response the three operations
return empty lists, and at a concrete 2xx body without a values array
the branch list returns an empty list. -/
theorem c3_lists_empty_on_failure_witness :
    (getRepoBranchListResult svcSaaS (.response resp500)).branches = [] ∧
    (getRepoLanguageListResult svcSaaS (.response resp500)).languages = [] ∧
    (getRepoFileListResult svcSaaS (.response resp500)).files = .arr [] ∧
    (getRepoBranchListResult svcSaaS (.response respOkEmptyObj)).branches = [] := by
  have h1 := (c3_lists_empty_on_failure svcSaaS (.response resp500)).1 rfl
  have h2 := (c3_lists_empty_on_failure svcSaaS (.response respOkEmptyObj)).2
    (.json (.obj [])) rfl rfl
  exact ⟨h1.1, h1.2.1, h1.2.2, h2⟩

/-- C4: basic-auth header derivation is a pure function of the auth
descriptor: for BASIC_AUTH it base64-decodes the stored username and
password and re-encodes username colon password as one basic token,
and for any other kind it derives no headers; on the encoded pair of
the spec example the derived header value is Basic dXNlcjpwYXNz. -/
theorem c4_basic_auth_header (gs : GitSource) :
    (gs.secretType = SecretType.BASIC_AUTH →
      getAuthProvider gs = some [("Authorization",
        "Basic " ++ Base64.encode (Base64.decode gs.secretContent.username ++ ":" ++
          Base64.decode gs.secretContent.password))]) ∧
    (gs.secretType ≠ SecretType.BASIC_AUTH → getAuthProvider gs = none) ∧
    Base64.decode ("dXNlcg==") = "user" ∧
    Base64.decode ("cGFzcw==") = "pass" ∧
    Base64.encode ("user:pass") = "dXNlcjpwYXNz" ∧
    getAuthProvider gsBasic = some [("Authorization", "Basic dXNlcjpwYXNz")] := by
  refine ⟨?_, ?_, by decide, by decide, by decide, by decide⟩
  · intro h
    simp [getAuthProvider, h]
  · intro h
    cases hst : gs.secretType with
    | BASIC_AUTH => exact absurd hst h
    | OTHER => simp [getAuthProvider, hst]

/-- Witness for C4: the concrete BASIC_AUTH descriptor yields the
combined token and a non-basic descriptor yields no headers. -/
theorem c4_basic_auth_header_witness :
    getAuthProvider gsBasic = some [("Authorization", "Basic dXNlcjpwYXNz")] ∧
    getAuthProvider gsSaaS = none := by
  have h1 := (c4_basic_auth_header gsBasic).1 rfl
  have h2 := (c4_basic_auth_header gsSaaS).2.1 (by decide)
  exact ⟨by rw [h1]; rfl, h2⟩

/-- C5: the single fetch primitive issues a GET with the JSON Accept
header plus the derived auth headers; every non-2xx response makes it
fail carrying the raw response (so callers can branch on its status);
every 2xx response resolves to the raw body text when the declared
content type is text/plain and to the parsed JSON body otherwise. -/
theorem c5_fetch_primitive (gs : GitSource) (url : String) (r : HttpResponse) :
    (fetchRequest gs url).method = "GET" ∧
    (fetchRequest gs url).url = url ∧
    (fetchRequest gs url).headers =
      (match getAuthProvider gs with
       | some auth => ("Accept", "application/json") :: auth
       | none => [("Accept", "application/json")]) ∧
    (r.ok = false → fetchJsonResult (.response r) = .error (.resp r)) ∧
    (r.ok = true → r.contentType = some ("text/plain") →
      fetchJsonResult (.response r) = .ok (.text r.bodyText)) ∧
    (∀ j : Json, r.ok = true → r.contentType ≠ some ("text/plain") →
      r.bodyJson = .ok j → fetchJsonResult (.response r) = .ok (.json j)) := by
  refine ⟨rfl, rfl, rfl, ?_, ?_, ?_⟩
  · intro hok
    simp [fetchJsonResult, hok]
  · intro hok hct
    simp [fetchJsonResult, hok, hct]
  · intro j hok hct hbj
    simp [fetchJsonResult, hok, hct, hbj]

/-- Witness for C5: at a concrete adapter descriptor, a 500 response
is thrown as the raw response, a text/plain 2xx resolves to its body
text, and a JSON 2xx resolves to the parsed body. -/
theorem c5_fetch_primitive_witness :
    (fetchRequest gsBasic ("u")).headers =
      [("Accept", "application/json"), ("Authorization", "Basic dXNlcjpwYXNz")] ∧
    fetchJsonResult (.response resp500) = .error (.resp resp500) ∧
    fetchJsonResult (.response respTextPlain) = .ok (.text ("hello")) ∧
    fetchJsonResult (.response respOkEmptyObj) = .ok (.json (.obj [])) := by
  have h0 := (c5_fetch_primitive gsBasic ("u") resp500).2.2.1
  have h1 := (c5_fetch_primitive gsBasic ("u") resp500).2.2.2.1 rfl
  have h2 := (c5_fetch_primitive gsBasic ("u") respTextPlain).2.2.2.2.1 rfl rfl
  have h3 := (c5_fetch_primitive gsBasic ("u") respOkEmptyObj).2.2.2.2.2 (.obj [])
    rfl (by decide) rfl
  exact ⟨by rw [h0]; decide, h1, by rw [h2]; rfl, h3⟩

/-- C6 counterexample: a GET that succeeds with status 200 but whose
body is not valid JSON (and is not declared text/plain) makes the
shared primitive reject, so the file-existence check returns false
even though the request succeeded with a 2xx status, refuting the
claimed if-and-only-if. -/
theorem c6_counterexample_bad_json :
    HttpResponse.ok respBadJson = true ∧
    isFilePresentResult svcSaaS (.response respBadJson) = false :=
  ⟨rfl, rfl⟩

/-- C6 (amended): the file-existence check strips a single leading
slash from its path argument before building the raw-content URL, it
never throws (it is a total function of the outcome), and it returns
true if and only if the GET yields a response with 2xx status that the
shared primitive also accepts, that is, whose declared content type is
text/plain or whose body parses as JSON. -/
theorem c6_file_present_iff (s : BitbucketService) (path : String) (o : FetchOutcome) :
    (∀ rest : List Char, stripLeadingSlash (String.mk ('/' :: rest)) = String.mk rest) ∧
    (path.data.head? ≠ some '/' → stripLeadingSlash path = path) ∧
    (s.isServer = true →
      isFilePresentUrl s path =
        s.baseURL ++ "/projects/" ++ s.metadata.owner ++ "/repos/" ++
          s.metadata.repoName ++ "/raw/" ++ stripLeadingSlash path ++ "?at=" ++
          s.metadata.defaultBranch) ∧
    (s.isServer = false →
      isFilePresentUrl s path =
        s.baseURL ++ "/repositories/" ++ s.metadata.owner ++ "/" ++
          s.metadata.repoName ++ "/src/" ++ s.metadata.defaultBranch ++ "/" ++
          stripLeadingSlash path) ∧
    (isFilePresentResult s o = true ↔
      ∃ r : HttpResponse, o = .response r ∧ r.ok = true ∧
        (r.contentType = some ("text/plain") ∨ ∃ j : Json, r.bodyJson = .ok j)) := by
  refine ⟨?_, ?_, ?_, ?_, ?_⟩
  · intro rest
    rfl
  · intro h
    unfold stripLeadingSlash
    split
    · rename_i rest heq
      exact absurd (by rw [heq]; rfl) h
    · rfl
  · intro hs
    simp [isFilePresentUrl, hs]
  · intro hs
    simp [isFilePresentUrl, hs]
  · cases o with
    | netError =>
      simp [isFilePresentResult, fetchJsonResult]
    | response r =>
      by_cases hok : r.ok
      · by_cases hct : r.contentType = some ("text/plain")
        · simp [isFilePresentResult, fetchJsonResult, hok, hct]
        · cases hbj : r.bodyJson with
          | ok j =>
            simp [isFilePresentResult, fetchJsonResult, hok, hct, hbj]
          | error e =>
            simp [isFilePresentResult, fetchJsonResult, hok, hct, hbj]
      · have hok2 : r.ok = false := by simpa using hok
        simp [isFilePresentResult, fetchJsonResult, hok2]

/-- Witness for C6: a path with a leading slash maps to the same URL
as without it on a concrete adapter, and a concrete text/plain 2xx
response makes the check return true while a 500 makes it false. -/
theorem c6_file_present_iff_witness :
    stripLeadingSlash ("/a") = "a" ∧
    isFilePresentResult svcSaaS (.response respTextPlain) = true ∧
    isFilePresentResult svcSaaS (.response resp500) = false := by
  have h1 := (c6_file_present_iff svcSaaS ("/a") (.response respTextPlain)).1 (("a").data)
  have h2 := (c6_file_present_iff svcSaaS ("/a") (.response respTextPlain)).2.2.2.2
  have h3 := (c6_file_present_iff svcSaaS ("/a") (.response resp500)).2.2.2.2
  refine ⟨h1, h2.mpr ⟨respTextPlain, rfl, rfl, Or.inl rfl⟩, ?_⟩
  by_contra hfalse
  have : isFilePresentResult svcSaaS (.response resp500) = true := by
    revert hfalse
    cases hres : isFilePresentResult svcSaaS (.response resp500) <;> simp
  obtain ⟨r, hr, hok, -⟩ := h3.mp this
  cases hr
  exact absurd hok (by decide)

/-- C7 counterexample: a 2xx response whose JSON body is an object
without a language field makes the language list return the
one-element list holding the undefined value, not the empty list the
claim requires for an absent field. -/
theorem c7_counterexample_absent_language :
    HttpResponse.ok respOkEmptyObj = true ∧
    (getRepoLanguageListResult svcSaaS (.response respOkEmptyObj)).languages = [.undefined] ∧
    ([Json.undefined] ≠ ([] : List Json)) :=
  ⟨rfl, rfl, by simp⟩

/-- C7 (amended): the language list GETs the repo resource and wraps
the language field of the resolved body in a one-element list whenever
that field can be read, including the absent case, where the single
element is the undefined value; it returns the empty list on any
failure of the fetch primitive and when the resolved body is null or
undefined so that reading the field throws. -/
theorem c7_language_singleton (s : BitbucketService) (o : FetchOutcome) :
    (s.isServer = true →
      getRepoLanguageListUrl s =
        s.baseURL ++ "/projects/" ++ s.metadata.owner ++ "/repos/" ++
          s.metadata.repoName) ∧
    (s.isServer = false →
      getRepoLanguageListUrl s =
        s.baseURL ++ "/repositories/" ++ s.metadata.owner ++ "/" ++
          s.metadata.repoName) ∧
    (fetchFails o = true → (getRepoLanguageListResult s o).languages = []) ∧
    (∀ res : FetchBody, ∀ v : Json, fetchJsonResult o = .ok res →
      jsGet (resultToJson res) ("language") = .ok v →
      (getRepoLanguageListResult s o).languages = [v]) ∧
    (∀ res : FetchBody, fetchJsonResult o = .ok res →
      jsGet (resultToJson res) ("language") = .error () →
      (getRepoLanguageListResult s o).languages = []) := by
  refine ⟨?_, ?_, ?_, ?_, ?_⟩
  · intro hs
    simp [getRepoLanguageListUrl, hs]
  · intro hs
    simp [getRepoLanguageListUrl, hs]
  · intro hf
    unfold fetchFails at hf
    cases hres : fetchJsonResult o with
    | ok res => rw [hres] at hf; exact absurd hf (by simp)
    | error e => simp [getRepoLanguageListResult, hres]
  · intro res v hres hlang
    simp [getRepoLanguageListResult, hres, hlang]
  · intro res hres hlang
    simp [getRepoLanguageListResult, hres, hlang]

/-- Witness for C7: at concrete outcomes the language list is empty on
a 500, a singleton on a body with a language field, and empty on a
null body. -/
theorem c7_language_singleton_witness :
    (getRepoLanguageListResult svcSaaS (.response resp500)).languages = [] ∧
    (getRepoLanguageListResult svcSaaS (.response respOkEmptyObj)).languages = [.undefined] ∧
    (getRepoLanguageListResult svcSaaS (.response respOkNullBody)).languages = [] := by
  have h1 := (c7_language_singleton svcSaaS (.response resp500)).2.2.1 rfl
  have h2 := (c7_language_singleton svcSaaS (.response respOkEmptyObj)).2.2.2.1
    (.json (.obj [])) .undefined rfl rfl
  have h3 := (c7_language_singleton svcSaaS (.response respOkNullBody)).2.2.2.2
    (.json .null) rfl rfl
  exact ⟨h1, h2, h3⟩

/-- C8: for the adapter built from https colon slash slash bitbucket
dot org slash org slash repo with ref main, the branch list maps the
success body with values main and dev to exactly those two branch
names, and maps a 500 response to the empty list. -/
theorem c8_branch_list_scenario :
    (parseBitbucketUrl gsSaaS.url).host = "bitbucket.org" ∧
    (construct gsSaaS).isServer = false ∧
    (getRepoBranchListResult (construct gsSaaS) (.response respBranches)).branches =
      [.str ("main"), .str ("dev")] ∧
    (getRepoBranchListResult (construct gsSaaS) (.response resp500)).branches = [] :=
  ⟨rfl, rfl, rfl, rfl⟩

/-- C9: when the source descriptor carries no ref the stored default
branch is the literal HEAD, and that literal is the at/branch
component of every branch-scoped URL the adapter builds: the directory
listing in both modes, with and without an extra path segment, and the
raw file fetch of both the existence check and the content fetch. -/
theorem c9_default_branch_head (gs : GitSource) (h : gs.ref = none) :
    (construct gs).metadata.defaultBranch = "HEAD" ∧
    (isServerURL (construct gs) true none =
      (construct gs).baseURL ++ "/projects/" ++ (construct gs).metadata.owner ++
        "/repos/" ++ (construct gs).metadata.repoName ++ "/files/" ++
        (construct gs).metadata.contextDir ++ "?limit=50&at=" ++ "HEAD") ∧
    (isServerURL (construct gs) false none =
      (construct gs).baseURL ++ "/repositories/" ++ (construct gs).metadata.owner ++
        "/" ++ (construct gs).metadata.repoName ++ "/src/" ++ "HEAD" ++ "/" ++
        (construct gs).metadata.contextDir ++ "?pagelen=50") ∧
    (∀ sp : String, sp ≠ "" →
      isServerURL (construct gs) true (some sp) =
        (construct gs).baseURL ++ "/projects/" ++ (construct gs).metadata.owner ++
          "/repos/" ++ (construct gs).metadata.repoName ++ "/files/" ++
          (construct gs).metadata.contextDir ++ "/" ++ sp ++ "?limit=50&at=" ++ "HEAD") ∧
    (∀ sp : String, sp ≠ "" →
      isServerURL (construct gs) false (some sp) =
        (construct gs).baseURL ++ "/repositories/" ++ (construct gs).metadata.owner ++
          "/" ++ (construct gs).metadata.repoName ++ "/src/" ++ "HEAD" ++ "/" ++
          (construct gs).metadata.contextDir ++ "/" ++ sp ++ "?pagelen=50") ∧
    (∀ p : String, (construct gs).isServer = true →
      isFilePresentUrl (construct gs) p =
        (construct gs).baseURL ++ "/projects/" ++ (construct gs).metadata.owner ++
          "/repos/" ++ (construct gs).metadata.repoName ++ "/raw/" ++
          stripLeadingSlash p ++ "?at=" ++ "HEAD") ∧
    (∀ p : String, (construct gs).isServer = false →
      isFilePresentUrl (construct gs) p =
        (construct gs).baseURL ++ "/repositories/" ++ (construct gs).metadata.owner ++
          "/" ++ (construct gs).metadata.repoName ++ "/src/" ++ "HEAD" ++ "/" ++
          stripLeadingSlash p) ∧
    (∀ p : String, (construct gs).isServer = true →
      getFileContentUrl (construct gs) p =
        (construct gs).baseURL ++ "/projects/" ++ (construct gs).metadata.owner ++
          "/repos/" ++ (construct gs).metadata.repoName ++ "/raw/" ++
          stripLeadingSlash p ++ "?at=" ++ "HEAD") ∧
    (∀ p : String, (construct gs).isServer = false →
      getFileContentUrl (construct gs) p =
        (construct gs).baseURL ++ "/repositories/" ++ (construct gs).metadata.owner ++
          "/" ++ (construct gs).metadata.repoName ++ "/src/" ++ "HEAD" ++ "/" ++
          stripLeadingSlash p) := by
  have hd : (construct gs).metadata.defaultBranch = "HEAD" := by
    rw [construct_metadata]
    simp [getRepoMetadata, jsOrStr, h]
  refine ⟨hd, ?_, ?_, ?_, ?_, ?_, ?_, ?_, ?_⟩
  · simp [isServerURL, optStrTruthy, hd]
  · simp [isServerURL, optStrTruthy, hd]
  · intro sp hsp
    simp [isServerURL, optStrTruthy, hsp, hd]
  · intro sp hsp
    simp [isServerURL, optStrTruthy, hsp, hd]
  · intro p hs
    simp [isFilePresentUrl, hs, hd]
  · intro p hs
    simp [isFilePresentUrl, hs, hd]
  · intro p hs
    simp [getFileContentUrl, hs, hd]
  · intro p hs
    simp [getFileContentUrl, hs, hd]

/-- Witness for C9: the self-hosted adapter built without a ref stores
HEAD and embeds it in a concrete raw-file URL; the SaaS adapter built
without a ref does the same in its source-browsing URL. -/
theorem c9_default_branch_head_witness :
    (construct gsServer).metadata.defaultBranch = "HEAD" ∧
    (construct gsSaaSNoRef).metadata.defaultBranch = "HEAD" ∧
    isFilePresentUrl (construct gsServer) ("/x") =
      "https://git.example.com/rest/api/1.0/projects/org/repos/repo/raw/x?at=HEAD" ∧
    isFilePresentUrl (construct gsSaaSNoRef) ("x") =
      "https://api.bitbucket.org/2.0/repositories/org/repo/src/HEAD/x" := by
  have h1 := c9_default_branch_head gsServer rfl
  have h2 := c9_default_branch_head gsSaaSNoRef rfl
  have h3 := h1.2.2.2.2.2.1 ("/x") rfl
  have h4 := h2.2.2.2.2.2.2.1 ("x") rfl
  exact ⟨h1.1, h2.1, by rw [h3]; decide, by rw [h4]; decide⟩

/-- C10: on a resolved response whose values field is absent the file
list returns an empty files array in SaaS mode (the optional chain
collapses undefined through the logical-or fallback), while in
self-hosted mode the very same outcome passes the undefined field
through: the collapse happens only on the SaaS branch. -/
theorem c10_saas_values_absent (s : BitbucketService) (o : FetchOutcome) (res : FetchBody)
    (h1 : fetchJsonResult o = .ok res)
    (h2 : jsGet (resultToJson res) ("values") = .ok .undefined) :
    (getRepoFileListResult s o).files =
      (if s.isServer then Json.undefined else Json.arr []) ∧
    Json.undefined ≠ Json.arr [] := by
  constructor
  · by_cases hs : s.isServer
    · simp [getRepoFileListResult, h1, hs, h2]
    · simp [getRepoFileListResult, h1, hs, h2, saasFiles, jsOrJson, Json.truthy]
  · exact fun hx => Json.noConfusion hx

/-- Witness for C10: the concrete empty-object 2xx body yields an
empty files array on the SaaS adapter and the undefined value on the
self-hosted adapter. -/
theorem c10_saas_values_absent_witness :
    (getRepoFileListResult svcSaaS (.response respOkEmptyObj)).files = .arr [] ∧
    (getRepoFileListResult svcServer (.response respOkEmptyObj)).files = .undefined := by
  have h1 := (c10_saas_values_absent svcSaaS (.response respOkEmptyObj)
    (.json (.obj [])) rfl rfl).1
  have h2 := (c10_saas_values_absent svcServer (.response respOkEmptyObj)
    (.json (.obj [])) rfl rfl).1
  exact ⟨by rw [h1]; rfl, by rw [h2]; rfl⟩
